import Mathlib

/-!
Verification of the UV-map synthesis core of the Render workbench
(`src/Render/renderingmesh.py`).

The embedding models:
  * 3-D / 2-D vectors over the real numbers (`V3`, `V2`);
  * triangular facets carrying their three concrete corner points
    (`Facet`), with the derived outward normal;
  * meshes as an ordered point list plus index-triple facets (`Mesh`),
    together with the external mesh operations the module uses:
    building a mesh from a facet list (coincident points merged,
    first-occurrence order), transforming all points, and appending one
    mesh to another with no point deduplication;
  * placements as an affine transform given by its forward and inverse
    application functions (`Placement`);
  * the `RenderingMesh` wrapper and its three UV-projection strategies,
    with Python exceptions rendered as `Except Err` and the final
    field assignment modelled as an explicit state swap.

Transcendental functions (`atan2`, `asin`, `hypot`, square roots from
vector lengths) are modelled by their real-number counterparts.
-/

noncomputable section

/-- A 3-D vector (FreeCAD `App.Base.Vector`). -/
structure V3 where
  x : ℝ
  y : ℝ
  z : ℝ

/-- A 2-D vector (FreeCAD `App.Base.Vector2d`). -/
structure V2 where
  x : ℝ
  y : ℝ

instance : DecidableEq V3 := fun _ _ => Classical.dec _

instance : DecidableEq V2 := fun _ _ => Classical.dec _

def V3.add (a b : V3) : V3 := ⟨a.x + b.x, a.y + b.y, a.z + b.z⟩

def V3.sub (a b : V3) : V3 := ⟨a.x - b.x, a.y - b.y, a.z - b.z⟩

/-- Division of a vector by a scalar (`Vector / k`). -/
def V3.div (a : V3) (k : ℝ) : V3 := ⟨a.x / k, a.y / k, a.z / k⟩

/-- Multiplication of a vector by a scalar. -/
def V3.smul (a : V3) (k : ℝ) : V3 := ⟨a.x * k, a.y * k, a.z * k⟩

def V3.dot (a b : V3) : ℝ := a.x * b.x + a.y * b.y + a.z * b.z

def V3.cross (a b : V3) : V3 :=
  ⟨a.y * b.z - a.z * b.y, a.z * b.x - a.x * b.z, a.x * b.y - a.y * b.x⟩

/-- Source `Vector.Length`: the Euclidean norm. -/
def V3.length (a : V3) : ℝ := Real.sqrt (a.x ^ 2 + a.y ^ 2 + a.z ^ 2)

/-- Source `Vector2d * k`: scalar multiplication of a 2-D vector. -/
def V2.smul (a : V2) (k : ℝ) : V2 := ⟨a.x * k, a.y * k⟩

/-- Errors the module can raise: `ValueError` for an unknown projection
kind, `ZeroDivisionError` for a division by zero, and the FreeCAD error
raised by `Vector.normalize()` on a null vector. -/
inductive Err
  | valueError
  | zeroDivisionError
  | nullVectorError
deriving DecidableEq

/-- Source `Vector.normalize()`: divides by the length, raising on a null
vector (FreeCAD refuses to normalize the zero vector). -/
def V3.normalize (a : V3) : Except Err V3 :=
  if a.length = 0 then .error .nullVectorError else .ok (a.div a.length)

/-- Source `math.atan2(y, x)` (argument order as in Python). -/
def atan2 (y x : ℝ) : ℝ := Complex.arg ⟨x, y⟩

/-- Source `math.hypot(x, y)`. -/
def hypot (x y : ℝ) : ℝ := Real.sqrt (x ^ 2 + y ^ 2)

/-- Source `math.asin`. -/
def asin (x : ℝ) : ℝ := Real.arcsin x

/-- Source `math.isclose(a, b, rel_tol, abs_tol)`:
`|a - b| <= max(rel_tol * max(|a|, |b|), abs_tol)`.
The source calls it with the default `rel_tol = 1e-9` and
`abs_tol = 1e-5`. -/
def isclose (a b relTol absTol : ℝ) : Prop :=
  |a - b| ≤ max (relTol * max |a| |b|) absTol

instance (a b relTol absTol : ℝ) : Decidable (isclose a b relTol absTol) :=
  Classical.dec _

/-- A triangular facet carrying its three concrete corner points
(`facet.Points` of a FreeCAD facet). -/
structure Facet where
  p1 : V3
  p2 : V3
  p3 : V3

instance : DecidableEq Facet := fun _ _ => Classical.dec _

/-- Source `facet.Normal`: the normalized cross product of the two edge
vectors; the zero vector is left unchanged for a degenerate facet. -/
def Facet.normal (f : Facet) : V3 :=
  let c := (f.p2.sub f.p1).cross (f.p3.sub f.p1)
  if c.length = 0 then c else c.div c.length

/-- A mesh: ordered points plus facets as index triples into the point
list (FreeCAD `Mesh.Mesh`, external). -/
structure Mesh where
  points : List V3
  facets : List (Nat × Nat × Nat)

def Mesh.empty : Mesh := ⟨[], []⟩

/-- Source `mesh.Facets`: the facets with their concrete corner points. -/
def Mesh.Facets (m : Mesh) : List Facet :=
  m.facets.map fun t =>
    ⟨m.points.getD t.1 ⟨0, 0, 0⟩, m.points.getD t.2.1 ⟨0, 0, 0⟩,
      m.points.getD t.2.2 ⟨0, 0, 0⟩⟩

/-- Source `mesh.transform(matrix)`: apply a point transformation to every
point. -/
def Mesh.transform (m : Mesh) (f : V3 → V3) : Mesh :=
  { m with points := m.points.map f }

/-- Append a point to a point list unless it is already present
(the mesh kernel merges coincident points). -/
def insertPoint (ps : List V3) (p : V3) : List V3 :=
  if p ∈ ps then ps else ps ++ [p]

/-- Index of a point in a point list (the point is assumed present). -/
def indexOfPoint (ps : List V3) (p : V3) : Nat :=
  match ps with
  | [] => 0
  | q :: qs => if q = p then 0 else indexOfPoint qs p + 1

/-- Source `Mesh.Mesh(list_of_facets)`: build a mesh from a facet list;
coincident corner points are merged, in first-occurrence order, and
facets keep their order. -/
def Mesh.ofFacets (fs : List Facet) : Mesh :=
  let pts := fs.foldl
    (fun acc f => insertPoint (insertPoint (insertPoint acc f.p1) f.p2) f.p3) []
  { points := pts
    facets := fs.map fun f =>
      (indexOfPoint pts f.p1, indexOfPoint pts f.p2, indexOfPoint pts f.p3) }

/-- Source `mesh.addMesh(other)`: union of points and facets, appending with
no point deduplication. -/
def Mesh.addMesh (m other : Mesh) : Mesh :=
  { points := m.points ++ other.points
    facets := m.facets ++ other.facets.map fun t =>
      (t.1 + m.points.length, t.2.1 + m.points.length, t.2.2 + m.points.length) }

/-- A placement: an affine transform, modelled by its application
function together with the application function of its inverse
(`placement.Matrix` and `placement.inverse().Matrix`). -/
structure Placement where
  toFun : V3 → V3
  invFun : V3 → V3

/-- The default (null) placement `App.Base.Placement()`. -/
def Placement.identity : Placement := ⟨fun v => v, fun v => v⟩

/-- The `RenderingMesh` object: the owned mesh, the unplaced original
mesh, the placement factored out at construction, and the optional UV
map. -/
structure RenderingMesh where
  mesh : Mesh
  originalmesh : Mesh
  originalplacement : Placement
  uvmap : Option (List V2)

/-- Source `RenderingMesh.__init__` for a present mesh: the original mesh is a
copy of the input with the placement's inverse applied, the placement
is stored, and the UV map is taken as given.  (The `mesh=None` branch
of the source leaves the original-mesh fields unset and is exercised by
no claim, so it is not modelled.) -/
def RenderingMesh.init (mesh : Mesh) (uvmap : Option (List V2))
    (placement : Placement) : RenderingMesh :=
  { mesh := mesh
    originalmesh := mesh.transform placement.invFun
    originalplacement := placement
    uvmap := uvmap }

/-- Source `RenderingMesh.copy`: rebuilds from the current mesh and UV map,
with the placement argument left to its default (the identity). -/
def RenderingMesh.copy (rm : RenderingMesh) : RenderingMesh :=
  RenderingMesh.init rm.mesh rm.uvmap Placement.identity

/-- Source `RenderingMesh.has_uvmap`. -/
def RenderingMesh.has_uvmap (rm : RenderingMesh) : Bool :=
  rm.uvmap.isSome

/-- The six faces of the unit cube (`_UnitCubeFaceEnum`), in source
declaration order. -/
inductive UnitCubeFace
  | XPLUS
  | XMINUS
  | YPLUS
  | YMINUS
  | ZPLUS
  | ZMINUS
deriving DecidableEq

/-- Python dict iteration over `{f: [] for f in _UnitCubeFaceEnum}`
follows insertion order, i.e. the enum declaration order. -/
def face_order : List UnitCubeFace :=
  [.XPLUS, .XMINUS, .YPLUS, .YMINUS, .ZPLUS, .ZMINUS]

/-- Source `_intersect_unitcube_face`: which face of the unit cube a ray from
the origin with the given direction meets. -/
def intersect_unitcube_face (direction : V3) : UnitCubeFace :=
  let dabs : ℝ × ℝ × ℝ := (|direction.x|, |direction.y|, |direction.z|)
  if dabs.1 ≥ dabs.2.1 ∧ dabs.1 ≥ dabs.2.2 then
    if direction.x ≥ 0 then .XPLUS else .XMINUS
  else if dabs.2.1 ≥ dabs.1 ∧ dabs.2.1 ≥ dabs.2.2 then
    if direction.y ≥ 0 then .YPLUS else .YMINUS
  else
    if direction.z ≥ 0 then .ZPLUS else .ZMINUS

/-- Source `_compute_uv_from_unitcube`: the fixed per-face 2-D unfolding. -/
def compute_uv_from_unitcube (point : V3) (face : UnitCubeFace) : V2 :=
  match face with
  | .XPLUS => ⟨point.y, point.z⟩
  | .YPLUS => ⟨-point.x, point.z⟩
  | .XMINUS => ⟨-point.y, point.z⟩
  | .YMINUS => ⟨point.x, point.z⟩
  | .ZPLUS => ⟨point.x, point.y⟩
  | .ZMINUS => ⟨point.x, -point.y⟩

/-- Source `_compute_barycenter`: arithmetic mean of a point list, the origin
for an empty list. -/
def compute_barycenter (points : List V3) : V3 :=
  let length := points.length
  if length = 0 then ⟨0, 0, 0⟩
  else (points.foldl V3.add ⟨0, 0, 0⟩).div length

/-- Source `_is_facet_normal_to_vector`: normalize the two edge vectors and
the reference vector, then test both dot products for closeness to zero
with `math.isclose(_, 0.0, abs_tol=1e-5)`. -/
def is_facet_normal_to_vector (facet : Facet) (vector : V3) : Except Err Bool :=
  match (facet.p2.sub facet.p1).normalize with
  | .error e => .error e
  | .ok vec1 =>
    match (facet.p3.sub facet.p1).normalize with
    | .error e => .error e
    | .ok vec2 =>
      match vector.normalize with
      | .error e => .error e
      | .ok vnorm =>
        .ok (if isclose (vec1.dot vnorm) 0 1e-9 1e-5 ∧
                isclose (vec2.dot vnorm) 0 1e-9 1e-5
             then true else false)

/-- The facet-splitting loop of `_compute_uvmap_cylinder`: regular
facets go to the first list, axis-normal facets to the second, in
traversal order; the first facet whose edge fails to normalize aborts
the loop. -/
def split_facets (fs : List Facet) (vector : V3) :
    Except Err (List Facet × List Facet) :=
  match fs with
  | [] => .ok ([], [])
  | f :: rest =>
    match is_facet_normal_to_vector f vector with
    | .error e => .error e
    | .ok b =>
      match split_facets rest vector with
      | .error e => .error e
      | .ok (r0, r1) => .ok (if b then (r0, f :: r1) else (f :: r0, r1))

/-- The `face_facets` dict-building loop of `_compute_uvmap_cube`: each
facet is appended to the bucket of the cube face its normal meets. -/
def build_face_facets (facets : List Facet) : UnitCubeFace → List Facet :=
  facets.foldl
    (fun acc facet =>
      let cubeface := intersect_unitcube_face facet.normal
      fun f => if f = cubeface then acc f ++ [facet] else acc f)
    (fun _ => [])

/-- One iteration of the submesh-merging loop of
`_compute_uvmap_cube`: build the face submesh, project its points
(divided by 1000) onto the face, transform by the original placement,
and append mesh and UV entries. -/
def cube_step (rm : RenderingMesh) (acc : Mesh × List V2)
    (cubeface : UnitCubeFace) : Mesh × List V2 :=
  let facemesh := Mesh.ofFacets (build_face_facets rm.originalmesh.Facets cubeface)
  let facemesh_uvmap :=
    facemesh.points.map fun p => compute_uv_from_unitcube (p.div 1000) cubeface
  let facemeshT := facemesh.transform rm.originalplacement.toFun
  (acc.1.addMesh facemeshT, acc.2 ++ facemesh_uvmap)

/-- The new mesh and UV map computed by `_compute_uvmap_cube` (always
succeeds). -/
def cube_result (rm : RenderingMesh) : Mesh × List V2 :=
  face_order.foldl (cube_step rm) (Mesh.empty, [])

/-- The new mesh and UV map computed by `_compute_uvmap_cylinder`,
up to the final field assignment. -/
def cylinder_result (rm : RenderingMesh) : Except Err (Mesh × List V2) :=
  match split_facets rm.originalmesh.Facets ⟨0, 0, 1⟩ with
  | .error e => .error e
  | .ok (faces0, faces1) =>
    let regular_mesh := Mesh.ofFacets faces0
    let points := regular_mesh.points
    if points.length = 0 then .error .zeroDivisionError
    else
      let avg_radius := (points.map fun p => hypot p.x p.y).sum / points.length
      let uv1 := points.map fun p =>
        V2.smul ⟨atan2 p.x p.y * avg_radius, p.z⟩ 0.001
      let regularT := regular_mesh.transform rm.originalplacement.toFun
      let mesh1 := Mesh.empty.addMesh regularT
      let z_mesh := Mesh.ofFacets faces1
      let uv2 := z_mesh.points.map fun p => V2.mk (p.x / 1000) (p.y / 1000)
      let zT := z_mesh.transform rm.originalplacement.toFun
      .ok (mesh1.addMesh zT, uv1 ++ uv2)

/-- Map a fallible function over a list, stopping at the first error
(the evaluation order of a Python generator inside `tuple(...)`). -/
def mapE (f : α → Except Err β) : List α → Except Err (List β)
  | [] => .ok []
  | a :: as =>
    match f a with
    | .error e => .error e
    | .ok b =>
      match mapE f as with
      | .error e => .error e
      | .ok bs => .ok (b :: bs)

/-- The per-vector UV formula of `_compute_uvmap_sphere`. -/
def sphere_uv (v : V3) : V2 :=
  V2.smul
    ⟨0.5 + atan2 v.x v.y / (2 * Real.pi),
      0.5 + asin (v.z / v.length) / Real.pi⟩
    (v.length / 1000 * Real.pi)

/-- The UV map computed by `_compute_uvmap_sphere`, up to the final
field assignment: v.Length = 0 makes `v.z / v.Length` raise
`ZeroDivisionError`. -/
def sphere_result (rm : RenderingMesh) : Except Err (List V2) :=
  let origin := compute_barycenter rm.originalmesh.points
  let vectors := rm.originalmesh.points.map fun p => p.sub origin
  mapE
    (fun v =>
      if v.length = 0 then .error .zeroDivisionError
      else .ok (sphere_uv v))
    vectors

/-- Source `RenderingMesh._compute_uvmap_cube`: the new mesh and UV map are
fully computed, then both fields are replaced. -/
def RenderingMesh.compute_uvmap_cube (rm : RenderingMesh) :
    Option Err × RenderingMesh :=
  let r := cube_result rm
  (none, { rm with mesh := r.1, uvmap := some r.2 })

/-- Source `RenderingMesh._compute_uvmap_cylinder`: on success both fields are
replaced; an exception propagates before any field assignment. -/
def RenderingMesh.compute_uvmap_cylinder (rm : RenderingMesh) :
    Option Err × RenderingMesh :=
  match cylinder_result rm with
  | .error e => (some e, rm)
  | .ok r => (none, { rm with mesh := r.1, uvmap := some r.2 })

/-- Source `RenderingMesh._compute_uvmap_sphere`: on success only the UV map
field is replaced; an exception propagates before the assignment. -/
def RenderingMesh.compute_uvmap_sphere (rm : RenderingMesh) :
    Option Err × RenderingMesh :=
  match sphere_result rm with
  | .error e => (some e, rm)
  | .ok uv => (none, { rm with uvmap := some uv })

/-- Source `RenderingMesh.compute_uvmap`: `None` defaults to `"Cubic"`;
unknown kinds raise `ValueError`. -/
def RenderingMesh.compute_uvmap (rm : RenderingMesh)
    (projection : Option String) : Option Err × RenderingMesh :=
  let proj := match projection with
    | none => "Cubic"
    | some s => s
  if proj = "Cubic" then rm.compute_uvmap_cube
  else if proj = "Spherical" then rm.compute_uvmap_sphere
  else if proj = "Cylindric" then rm.compute_uvmap_cylinder
  else (some .valueError, rm)

/-- An empty rendering mesh used as a concrete evaluation input. -/
def example0 : RenderingMesh :=
  RenderingMesh.init Mesh.empty none Placement.identity

/-- The spec-side description of the cube-face classifier: the returned
face is the axis of greatest absolute component with the component's
sign, ties broken by `>=` comparisons in the order X then Y. -/
def intersect_unitcube_face_spec (d : V3) : Prop :=
  (intersect_unitcube_face d = .XPLUS ↔ |d.x| ≥ |d.y| ∧ |d.x| ≥ |d.z| ∧ d.x ≥ 0) ∧
  (intersect_unitcube_face d = .XMINUS ↔ |d.x| ≥ |d.y| ∧ |d.x| ≥ |d.z| ∧ d.x < 0) ∧
  (intersect_unitcube_face d = .YPLUS ↔ |d.y| > |d.x| ∧ |d.y| ≥ |d.z| ∧ d.y ≥ 0) ∧
  (intersect_unitcube_face d = .YMINUS ↔ |d.y| > |d.x| ∧ |d.y| ≥ |d.z| ∧ d.y < 0) ∧
  (intersect_unitcube_face d = .ZPLUS ↔ |d.z| > |d.x| ∧ |d.z| > |d.y| ∧ d.z ≥ 0) ∧
  (intersect_unitcube_face d = .ZMINUS ↔ |d.z| > |d.x| ∧ |d.z| > |d.y| ∧ d.z < 0)

/-- The spec-side axis-normality test: normalize the two edge vectors
and the axis, and require both dot products to be within absolute
tolerance 1e-5 of zero. -/
def facet_normal_to_vector_spec (facet : Facet) (vector : V3) : Prop :=
  |((facet.p2.sub facet.p1).div (facet.p2.sub facet.p1).length).dot
      (vector.div vector.length)| ≤ 1e-5 ∧
  |((facet.p3.sub facet.p1).div (facet.p3.sub facet.p1).length).dot
      (vector.div vector.length)| ≤ 1e-5

instance (facet : Facet) (vector : V3) :
    Decidable (facet_normal_to_vector_spec facet vector) :=
  Classical.dec _

/-- A single regular (non-axis-normal) facet used for concrete
evaluation. -/
def exampleF : Facet := ⟨⟨0, 0, 0⟩, ⟨1, 0, 0⟩, ⟨0, 0, 1⟩⟩

/-- A one-facet mesh used for concrete evaluation. -/
def exampleMesh : Mesh := ⟨[⟨0, 0, 0⟩, ⟨1, 0, 0⟩, ⟨0, 0, 1⟩], [(0, 1, 2)]⟩

/-- A rendering mesh over `exampleMesh` with the identity placement. -/
def example1 : RenderingMesh :=
  RenderingMesh.init exampleMesh none Placement.identity

/-- A two-point rendering mesh whose points both differ from their
barycenter. -/
def example2 : RenderingMesh :=
  RenderingMesh.init ⟨[⟨0, 0, 0⟩, ⟨2, 0, 0⟩], []⟩ none Placement.identity

/-- A rendering mesh with a single unused point: the cubic strategy
rebuilds the mesh from its facets only, dropping the point. -/
def example3 : RenderingMesh :=
  RenderingMesh.init ⟨[⟨0, 0, 0⟩], []⟩ none Placement.identity

/-- Rotation by 90 degrees about the Y axis, as a placement. -/
def rotY : Placement := ⟨fun v => ⟨v.z, v.y, -v.x⟩, fun v => ⟨-v.z, v.y, v.x⟩⟩

/-- A translation placement. -/
def translate1 : Placement :=
  ⟨fun v => ⟨v.x + 1, v.y, v.z⟩, fun v => ⟨v.x - 1, v.y, v.z⟩⟩

/-- Placed facet with outward normal +Z. -/
def fA : Facet := ⟨⟨0, 0, 0⟩, ⟨1, 0, 0⟩, ⟨0, 1, 0⟩⟩

/-- Placed facet with outward normal +X. -/
def fB : Facet := ⟨⟨5, 0, 0⟩, ⟨5, 1, 0⟩, ⟨5, 0, 1⟩⟩

/-- Facet `fA` carried back to local space by the inverse of `rotY`. -/
def fAloc : Facet := ⟨⟨0, 0, 0⟩, ⟨0, 0, 1⟩, ⟨0, 1, 0⟩⟩

/-- Facet `fB` carried back to local space by the inverse of `rotY`. -/
def fBloc : Facet := ⟨⟨0, 0, 5⟩, ⟨0, 1, 5⟩, ⟨-1, 0, 5⟩⟩

/-- The two-facet placed mesh holding `fA` and `fB`. -/
def meshAB : Mesh :=
  ⟨[⟨0, 0, 0⟩, ⟨1, 0, 0⟩, ⟨0, 1, 0⟩, ⟨5, 0, 0⟩, ⟨5, 1, 0⟩, ⟨5, 0, 1⟩],
    [(0, 1, 2), (3, 4, 5)]⟩

/-- A rendering mesh constructed with the non-identity placement
`rotY`. -/
def exampleR : RenderingMesh := RenderingMesh.init meshAB none rotY

/-- Claim C7: `compute_uvmap` called with an unset (None) projection kind
behaves exactly as if called with Cubic, and called with any kind
outside the three supported ones fails with the invalid-argument error
(Python `ValueError`) without performing any projection. -/
theorem claim7_thm :
    (∀ rm : RenderingMesh, rm.compute_uvmap none = rm.compute_uvmap (some "Cubic")) ∧
    (∀ (rm : RenderingMesh) (s : String),
      s ≠ "Cubic" → s ≠ "Spherical" → s ≠ "Cylindric" →
      rm.compute_uvmap (some s) = (some Err.valueError, rm)) := by
  constructor
  · intro rm; rfl
  · intro rm s h1 h2 h3
    simp [RenderingMesh.compute_uvmap, h1, h2, h3]

/-- Witness instantiating the theorem of claim C7 at an unsupported kind. -/
theorem claim7_witness :
    ((("Planar" : String) ≠ "Cubic" ∧ ("Planar" : String) ≠ "Spherical" ∧
      ("Planar" : String) ≠ "Cylindric")) ∧
    example0.compute_uvmap (some "Planar") = (some Err.valueError, example0) :=
  ⟨⟨by decide, by decide, by decide⟩,
    claim7_thm.2 example0 "Planar" (by decide) (by decide) (by decide)⟩

/-- Claim C9: for every strategy, if `compute_uvmap` raises an error
partway through, the object retains exactly its pre-call state: the new
mesh and UV map are fully constructed before being assigned. -/
theorem claim9_thm :
    ∀ (rm : RenderingMesh) (proj : Option String) (e : Err) (rm2 : RenderingMesh),
      rm.compute_uvmap proj = (some e, rm2) → rm2 = rm := by
  intro rm proj e rm2 h
  unfold RenderingMesh.compute_uvmap at h
  rcases proj with _ | s
  · simp [RenderingMesh.compute_uvmap_cube] at h
  · by_cases h1 : s = "Cubic"
    · simp [h1, RenderingMesh.compute_uvmap_cube] at h
    · by_cases h2 : s = "Spherical"
      · simp [h1, h2, RenderingMesh.compute_uvmap_sphere] at h
        rcases hs : sphere_result rm with e2 | uv <;> rw [hs] at h <;> simp at h
        exact h.2.symm
      · by_cases h3 : s = "Cylindric"
        · simp [h1, h2, h3, RenderingMesh.compute_uvmap_cylinder] at h
          rcases hs : cylinder_result rm with e2 | r <;> rw [hs] at h <;> simp at h
          exact h.2.symm
        · simp [h1, h2, h3] at h
          exact h.2.symm

lemma example0_cylinder_fails :
    example0.compute_uvmap (some "Cylindric") = (some Err.zeroDivisionError, example0) := by
  simp [RenderingMesh.compute_uvmap, RenderingMesh.compute_uvmap_cylinder,
    cylinder_result, example0, RenderingMesh.init, Mesh.transform, Mesh.empty,
    Mesh.Facets, split_facets, Mesh.ofFacets]

/-- Witness instantiating the theorem of claim C9 at a failing input. -/
theorem claim9_witness :
    example0.compute_uvmap (some "Cylindric") = (some Err.zeroDivisionError, example0) ∧
    example0 = example0 :=
  ⟨example0_cylinder_fails,
    claim9_thm example0 (some "Cylindric") Err.zeroDivisionError example0
      example0_cylinder_fails⟩

lemma classify_x (d : V3) (h1 : |d.y| ≤ |d.x|) (h2 : |d.z| ≤ |d.x|) :
    intersect_unitcube_face d = if d.x ≥ 0 then .XPLUS else .XMINUS := by
  unfold intersect_unitcube_face
  rw [if_pos ⟨h1, h2⟩]

lemma classify_y (d : V3) (h1 : |d.x| < |d.y|) (h2 : |d.z| ≤ |d.y|) :
    intersect_unitcube_face d = if d.y ≥ 0 then .YPLUS else .YMINUS := by
  unfold intersect_unitcube_face
  rw [if_neg fun hA => absurd hA.1 (not_le.mpr h1), if_pos ⟨le_of_lt h1, h2⟩]

lemma classify_z (d : V3) (h1 : |d.x| < |d.z|) (h2 : |d.y| < |d.z|) :
    intersect_unitcube_face d = if d.z ≥ 0 then .ZPLUS else .ZMINUS := by
  unfold intersect_unitcube_face
  rw [if_neg fun hA => absurd hA.2 (not_le.mpr h1),
    if_neg fun hC => absurd hC.2 (not_le.mpr h2)]

lemma spec_of_x (d : V3) (h1 : |d.y| ≤ |d.x|) (h2 : |d.z| ≤ |d.x|) :
    intersect_unitcube_face_spec d := by
  have hclass := classify_x d h1 h2
  rcases le_or_lt 0 d.x with hx | hx
  · rw [if_pos hx] at hclass
    refine ⟨iff_of_true hclass ⟨h1, h2, hx⟩,
      iff_of_false ?_ ?_, iff_of_false ?_ ?_, iff_of_false ?_ ?_,
      iff_of_false ?_ ?_, iff_of_false ?_ ?_⟩ <;>
      first
      | (rw [hclass]; decide)
      | (rintro ⟨a, b, c⟩; linarith)
  · rw [if_neg (not_le.mpr hx)] at hclass
    refine ⟨iff_of_false ?_ ?_, iff_of_true hclass ⟨h1, h2, hx⟩,
      iff_of_false ?_ ?_, iff_of_false ?_ ?_,
      iff_of_false ?_ ?_, iff_of_false ?_ ?_⟩ <;>
      first
      | (rw [hclass]; decide)
      | (rintro ⟨a, b, c⟩; linarith)

lemma spec_of_y (d : V3) (h1 : |d.x| < |d.y|) (h2 : |d.z| ≤ |d.y|) :
    intersect_unitcube_face_spec d := by
  have hclass := classify_y d h1 h2
  rcases le_or_lt 0 d.y with hy | hy
  · rw [if_pos hy] at hclass
    refine ⟨iff_of_false ?_ ?_, iff_of_false ?_ ?_,
      iff_of_true hclass ⟨h1, h2, hy⟩, iff_of_false ?_ ?_,
      iff_of_false ?_ ?_, iff_of_false ?_ ?_⟩ <;>
      first
      | (rw [hclass]; decide)
      | (rintro ⟨a, b, c⟩; linarith)
  · rw [if_neg (not_le.mpr hy)] at hclass
    refine ⟨iff_of_false ?_ ?_, iff_of_false ?_ ?_,
      iff_of_false ?_ ?_, iff_of_true hclass ⟨h1, h2, hy⟩,
      iff_of_false ?_ ?_, iff_of_false ?_ ?_⟩ <;>
      first
      | (rw [hclass]; decide)
      | (rintro ⟨a, b, c⟩; linarith)

lemma spec_of_z (d : V3) (h1 : |d.x| < |d.z|) (h2 : |d.y| < |d.z|) :
    intersect_unitcube_face_spec d := by
  have hclass := classify_z d h1 h2
  rcases le_or_lt 0 d.z with hz | hz
  · rw [if_pos hz] at hclass
    refine ⟨iff_of_false ?_ ?_, iff_of_false ?_ ?_,
      iff_of_false ?_ ?_, iff_of_false ?_ ?_,
      iff_of_true hclass ⟨h1, h2, hz⟩, iff_of_false ?_ ?_⟩ <;>
      first
      | (rw [hclass]; decide)
      | (rintro ⟨a, b, c⟩; linarith)
  · rw [if_neg (not_le.mpr hz)] at hclass
    refine ⟨iff_of_false ?_ ?_, iff_of_false ?_ ?_,
      iff_of_false ?_ ?_, iff_of_false ?_ ?_,
      iff_of_false ?_ ?_, iff_of_true hclass ⟨h1, h2, hz⟩⟩ <;>
      first
      | (rw [hclass]; decide)
      | (rintro ⟨a, b, c⟩; linarith)

/-- Claim C2: for every non-zero direction, the cube-face classifier
returns the face of the axis whose component has the greatest absolute
value, the sign choosing plus or minus, with ties broken by `>=`
comparisons in the order X then Y; (1,1,0) and (1,0,0) classify to +X
and (0,0,-1) to -Z. -/
theorem claim2_thm :
    (∀ d : V3, d ≠ ⟨0, 0, 0⟩ → intersect_unitcube_face_spec d) ∧
    intersect_unitcube_face ⟨1, 1, 0⟩ = .XPLUS ∧
    intersect_unitcube_face ⟨1, 0, 0⟩ = .XPLUS ∧
    intersect_unitcube_face ⟨0, 0, -1⟩ = .ZMINUS := by
  refine ⟨fun d _ => ?_, ?_, ?_, ?_⟩
  · rcases le_or_lt |d.y| |d.x| with hxy | hxy
    · rcases le_or_lt |d.z| |d.x| with hxz | hxz
      · exact spec_of_x d hxy hxz
      · exact spec_of_z d hxz (lt_of_le_of_lt hxy hxz)
    · rcases le_or_lt |d.z| |d.y| with hyz | hyz
      · exact spec_of_y d hxy hyz
      · exact spec_of_z d (lt_trans hxy hyz) hyz
  · have h := classify_x ⟨1, 1, 0⟩ (by norm_num) (by norm_num)
    simpa using h
  · have h := classify_x ⟨1, 0, 0⟩ (by norm_num) (by norm_num)
    simpa using h
  · have h := classify_z ⟨0, 0, -1⟩ (by norm_num) (by norm_num)
    norm_num at h
    exact h

/-- Witness instantiating the theorem of claim C2 at direction (1,1,0). -/
theorem claim2_witness :
    (⟨1, 1, 0⟩ : V3) ≠ ⟨0, 0, 0⟩ ∧
    intersect_unitcube_face ⟨1, 1, 0⟩ = .XPLUS := by
  have hne : (⟨1, 1, 0⟩ : V3) ≠ ⟨0, 0, 0⟩ := by simp [V3.mk.injEq]
  exact ⟨hne, (claim2_thm.1 ⟨1, 1, 0⟩ hne).1.mpr (by norm_num)⟩

lemma build_face_facets_eq_filter (fs : List Facet) (face : UnitCubeFace) :
    build_face_facets fs face
      = fs.filter fun f => intersect_unitcube_face f.normal = face := by
  suffices h : ∀ (fs : List Facet) (acc : UnitCubeFace → List Facet) (face : UnitCubeFace),
      (fs.foldl
        (fun acc facet =>
          let cubeface := intersect_unitcube_face facet.normal
          fun f => if f = cubeface then acc f ++ [facet] else acc f)
        acc) face
      = acc face ++ (fs.filter fun f => intersect_unitcube_face f.normal = face) by
    simpa using h fs (fun _ => []) face
  intro fs
  induction fs with
  | nil => intro acc face; simp
  | cons f fs ih =>
    intro acc face
    rw [List.foldl_cons, ih, List.filter_cons]
    by_cases h : intersect_unitcube_face f.normal = face
    · simp [h, eq_comm]
    · have h2 : ¬ face = intersect_unitcube_face f.normal := fun hh => h hh.symm
      simp [h, h2]

lemma cube_foldl_char (rm : RenderingMesh) (faces : List UnitCubeFace)
    (acc : Mesh × List V2) :
    (faces.foldl (cube_step rm) acc).1.points
      = acc.1.points ++ (faces.map fun face =>
          (Mesh.ofFacets (build_face_facets rm.originalmesh.Facets face)).points.map
            rm.originalplacement.toFun).flatten ∧
    (faces.foldl (cube_step rm) acc).2
      = acc.2 ++ (faces.map fun face =>
          (Mesh.ofFacets (build_face_facets rm.originalmesh.Facets face)).points.map
            fun p => compute_uv_from_unitcube (p.div 1000) face).flatten := by
  induction faces generalizing acc with
  | nil => simp
  | cons face faces ih =>
    rw [List.foldl_cons]
    rcases ih (cube_step rm acc face) with ⟨ih1, ih2⟩
    constructor
    · rw [ih1]
      simp [cube_step, Mesh.addMesh, Mesh.transform]
    · rw [ih2]
      simp [cube_step]

lemma cube_result_points (rm : RenderingMesh) :
    (cube_result rm).1.points
      = (face_order.map fun face =>
          (Mesh.ofFacets (build_face_facets rm.originalmesh.Facets face)).points.map
            rm.originalplacement.toFun).flatten := by
  have h := (cube_foldl_char rm face_order (Mesh.empty, [])).1
  simpa [cube_result, Mesh.empty] using h

lemma cube_result_uv (rm : RenderingMesh) :
    (cube_result rm).2
      = (face_order.map fun face =>
          (Mesh.ofFacets (build_face_facets rm.originalmesh.Facets face)).points.map
            fun p => compute_uv_from_unitcube (p.div 1000) face).flatten := by
  have h := (cube_foldl_char rm face_order (Mesh.empty, [])).2
  simpa [cube_result] using h

/-- Claim C3: the cubic strategy divides every sub-mesh point by 1000 and
projects it by the face-specific unfolding +X -> (y,z), -X -> (-y,z),
+Y -> (-x,z), -Y -> (x,z), +Z -> (x,y), -Z -> (x,-y); the six sub-meshes
are merged in the fixed order +X,-X,+Y,-Y,+Z,-Z with no cross-face point
deduplication, and the local point (500,500,500) on a +Z face receives
UV (0.5, 0.5). -/
theorem claim3_thm :
    (∀ p : V3,
      compute_uv_from_unitcube p .XPLUS = ⟨p.y, p.z⟩ ∧
      compute_uv_from_unitcube p .XMINUS = ⟨-p.y, p.z⟩ ∧
      compute_uv_from_unitcube p .YPLUS = ⟨-p.x, p.z⟩ ∧
      compute_uv_from_unitcube p .YMINUS = ⟨p.x, p.z⟩ ∧
      compute_uv_from_unitcube p .ZPLUS = ⟨p.x, p.y⟩ ∧
      compute_uv_from_unitcube p .ZMINUS = ⟨p.x, -p.y⟩) ∧
    face_order = [.XPLUS, .XMINUS, .YPLUS, .YMINUS, .ZPLUS, .ZMINUS] ∧
    (∀ (fs : List Facet) (face : UnitCubeFace),
      build_face_facets fs face
        = fs.filter fun f => intersect_unitcube_face f.normal = face) ∧
    (∀ rm : RenderingMesh,
      (cube_result rm).2
        = (face_order.map fun face =>
            (Mesh.ofFacets (build_face_facets rm.originalmesh.Facets face)).points.map
              fun p => compute_uv_from_unitcube (p.div 1000) face).flatten ∧
      (cube_result rm).1.points
        = (face_order.map fun face =>
            (Mesh.ofFacets (build_face_facets rm.originalmesh.Facets face)).points.map
              rm.originalplacement.toFun).flatten) ∧
    compute_uv_from_unitcube (V3.div ⟨500, 500, 500⟩ 1000) .ZPLUS = ⟨0.5, 0.5⟩ := by
  refine ⟨fun p => ⟨rfl, rfl, rfl, rfl, rfl, rfl⟩, rfl,
    build_face_facets_eq_filter,
    fun rm => ⟨cube_result_uv rm, cube_result_points rm⟩, ?_⟩
  simp only [compute_uv_from_unitcube, V3.div, V2.mk.injEq]
  norm_num

/-- Source `math.isclose(d, 0.0, abs_tol=1e-5)` is exactly closeness within
absolute tolerance 1e-5: the relative-tolerance branch can only win
when `|d| = 0`. -/
lemma isclose_zero_iff (d : ℝ) : isclose d 0 1e-9 1e-5 ↔ |d| ≤ 1e-5 := by
  unfold isclose
  rw [sub_zero, abs_zero, max_eq_left (abs_nonneg d)]
  constructor
  · intro h
    rcases le_max_iff.mp h with h1 | h1
    · have h2 : (0 : ℝ) ≤ |d| := abs_nonneg d
      linarith
    · exact h1
  · intro h
    exact le_max_iff.mpr (Or.inr h)

lemma normalize_ok (v w : V3) (h : v.normalize = .ok w) :
    v.length ≠ 0 ∧ w = v.div v.length := by
  unfold V3.normalize at h
  by_cases h0 : v.length = 0
  · rw [if_pos h0] at h
    exact absurd h (by simp)
  · rw [if_neg h0] at h
    simp at h
    exact ⟨h0, h.symm⟩

lemma is_facet_normal_to_vector_char (f : Facet) (v : V3) (b : Bool)
    (h : is_facet_normal_to_vector f v = .ok b) :
    b = true ↔ facet_normal_to_vector_spec f v := by
  unfold is_facet_normal_to_vector at h
  rcases h1 : (f.p2.sub f.p1).normalize with e1 | w1 <;> rw [h1] at h
  · exact absurd h (by simp)
  rcases h2 : (f.p3.sub f.p1).normalize with e2 | w2 <;> rw [h2] at h
  · exact absurd h (by simp)
  rcases h3 : v.normalize with e3 | w3 <;> rw [h3] at h
  · exact absurd h (by simp)
  simp only [Except.ok.injEq] at h
  rcases normalize_ok _ _ h1 with ⟨-, hw1⟩
  rcases normalize_ok _ _ h2 with ⟨-, hw2⟩
  rcases normalize_ok _ _ h3 with ⟨-, hw3⟩
  subst hw1 hw2 hw3 h
  by_cases hc : isclose (((f.p2.sub f.p1).div (f.p2.sub f.p1).length).dot
        (v.div v.length)) 0 1e-9 1e-5 ∧
      isclose (((f.p3.sub f.p1).div (f.p3.sub f.p1).length).dot
        (v.div v.length)) 0 1e-9 1e-5
  · rw [if_pos hc]
    exact iff_of_true rfl
      ⟨(isclose_zero_iff _).mp hc.1, (isclose_zero_iff _).mp hc.2⟩
  · rw [if_neg hc]
    exact iff_of_false (by simp) fun hspec =>
      hc ⟨(isclose_zero_iff _).mpr hspec.1, (isclose_zero_iff _).mpr hspec.2⟩

lemma split_facets_char (v : V3) :
    ∀ (fs : List Facet) (f0 f1 : List Facet),
      split_facets fs v = .ok (f0, f1) →
      f0 = (fs.filter fun f => ¬ facet_normal_to_vector_spec f v) ∧
      f1 = (fs.filter fun f => facet_normal_to_vector_spec f v) ∧
      f0.length + f1.length = fs.length := by
  intro fs
  induction fs with
  | nil =>
    intro f0 f1 h
    simp only [split_facets, Except.ok.injEq, Prod.mk.injEq] at h
    obtain ⟨rfl, rfl⟩ := h
    simp
  | cons f rest ih =>
    intro f0 f1 h
    unfold split_facets at h
    rcases hb : is_facet_normal_to_vector f v with e | b <;> rw [hb] at h
    · exact absurd h (by simp)
    rcases hr : split_facets rest v with e | r <;> rw [hr] at h
    · exact absurd h (by simp)
    rcases r with ⟨r0, r1⟩
    rcases ih r0 r1 hr with ⟨ihr0, ihr1, ihlen⟩
    have hchar := is_facet_normal_to_vector_char f v b hb
    simp only [Except.ok.injEq] at h
    by_cases hspec : facet_normal_to_vector_spec f v
    · have hb2 : b = true := hchar.mpr hspec
      subst hb2
      rw [if_pos rfl] at h
      simp only [Prod.mk.injEq] at h
      obtain ⟨rfl, rfl⟩ := h
      refine ⟨?_, ?_, ?_⟩
      · rw [List.filter_cons, ihr0]
        simp [hspec]
      · rw [List.filter_cons, ihr1]
        simp [hspec]
      · simp only [List.length_cons]
        omega
    · have hb2 : b = false := by
        rcases b with _ | _
        · rfl
        · exact absurd (hchar.mp rfl) hspec
      subst hb2
      simp only [Bool.false_eq_true, if_false] at h
      simp only [Prod.mk.injEq] at h
      obtain ⟨rfl, rfl⟩ := h
      refine ⟨?_, ?_, ?_⟩
      · rw [List.filter_cons, ihr0]
        simp [hspec]
      · rw [List.filter_cons, ihr1]
        simp [hspec]
      · simp only [List.length_cons]
        omega

/-- Claim C5: in the cylindric strategy every facet lands in exactly one
of the two partitions, the partition sizes sum to the input facet count,
and a facet is axis-normal exactly when, after normalizing the two edge
vectors and the axis, both dot products with the axis are within
absolute tolerance 1e-5 of zero. -/
theorem claim5_thm :
    ∀ (rm : RenderingMesh) (f0 f1 : List Facet),
      split_facets rm.originalmesh.Facets ⟨0, 0, 1⟩ = .ok (f0, f1) →
      f0.length + f1.length = rm.originalmesh.Facets.length ∧
      f1 = (rm.originalmesh.Facets.filter
        fun f => facet_normal_to_vector_spec f ⟨0, 0, 1⟩) ∧
      f0 = (rm.originalmesh.Facets.filter
        fun f => ¬ facet_normal_to_vector_spec f ⟨0, 0, 1⟩) := by
  intro rm f0 f1 h
  rcases split_facets_char ⟨0, 0, 1⟩ rm.originalmesh.Facets f0 f1 h with ⟨h0, h1, hlen⟩
  exact ⟨hlen, h1, h0⟩

/-- Claim C4: in the cylindric strategy, with avgRadius the arithmetic
mean of hypot(x,y) over the points of the regular sub-mesh, every
regular point receives UV = (atan2(x,y) * avgRadius, z) * 0.001, every
axis-normal point receives UV = (x/1000, y/1000), and both sub-meshes
are transformed by the original placement before being merged, regular
sub-mesh first. -/
theorem claim4_thm :
    ∀ (rm : RenderingMesh) (f0 f1 : List Facet),
      split_facets rm.originalmesh.Facets ⟨0, 0, 1⟩ = .ok (f0, f1) →
      (Mesh.ofFacets f0).points.length ≠ 0 →
      cylinder_result rm = .ok
        ((Mesh.empty.addMesh
            ((Mesh.ofFacets f0).transform rm.originalplacement.toFun)).addMesh
          ((Mesh.ofFacets f1).transform rm.originalplacement.toFun),
          ((Mesh.ofFacets f0).points.map fun p =>
            V2.smul
              ⟨atan2 p.x p.y *
                (((Mesh.ofFacets f0).points.map fun q => hypot q.x q.y).sum /
                  ((Mesh.ofFacets f0).points.length : ℝ)), p.z⟩ 0.001) ++
          ((Mesh.ofFacets f1).points.map fun p => V2.mk (p.x / 1000) (p.y / 1000))) ∧
      ((Mesh.empty.addMesh
          ((Mesh.ofFacets f0).transform rm.originalplacement.toFun)).addMesh
        ((Mesh.ofFacets f1).transform rm.originalplacement.toFun)).points
        = (Mesh.ofFacets f0).points.map rm.originalplacement.toFun ++
          (Mesh.ofFacets f1).points.map rm.originalplacement.toFun := by
  intro rm f0 f1 hs hne
  constructor
  · unfold cylinder_result
    rw [hs]
    dsimp only
    rw [if_neg hne]
  · simp [Mesh.addMesh, Mesh.transform, Mesh.empty]

lemma example1_originalmesh : example1.originalmesh = exampleMesh := by
  simp [example1, RenderingMesh.init, Placement.identity, Mesh.transform, exampleMesh]

lemma example1_Facets : example1.originalmesh.Facets = [exampleF] := by
  rw [example1_originalmesh]
  simp [Mesh.Facets, exampleMesh, exampleF, List.getD]

lemma normalize_unit_x : (V3.mk 1 0 0).normalize = .ok ⟨1, 0, 0⟩ := by
  unfold V3.normalize V3.length V3.div
  norm_num [Real.sqrt_one]

lemma normalize_unit_z : (V3.mk 0 0 1).normalize = .ok ⟨0, 0, 1⟩ := by
  unfold V3.normalize V3.length V3.div
  norm_num [Real.sqrt_one]

lemma exampleF_not_normal :
    is_facet_normal_to_vector exampleF ⟨0, 0, 1⟩ = .ok false := by
  have e1 : exampleF.p2.sub exampleF.p1 = V3.mk 1 0 0 := by
    simp [exampleF, V3.sub]
  have e2 : exampleF.p3.sub exampleF.p1 = V3.mk 0 0 1 := by
    simp [exampleF, V3.sub]
  unfold is_facet_normal_to_vector
  rw [e1, e2, normalize_unit_x, normalize_unit_z]
  dsimp only
  rw [if_neg]
  rintro ⟨-, hc2⟩
  have h := (isclose_zero_iff _).mp hc2
  norm_num [V3.dot] at h

lemma example1_split :
    split_facets example1.originalmesh.Facets ⟨0, 0, 1⟩ = .ok ([exampleF], []) := by
  rw [example1_Facets]
  simp [split_facets, exampleF_not_normal]

lemma ofFacets_exampleF :
    Mesh.ofFacets [exampleF] = ⟨[⟨0, 0, 0⟩, ⟨1, 0, 0⟩, ⟨0, 0, 1⟩], [(0, 1, 2)]⟩ := by
  norm_num [Mesh.ofFacets, insertPoint, indexOfPoint, exampleF, V3.mk.injEq,
    List.mem_singleton, List.mem_cons]

/-- Witness instantiating the theorem of claim C4 at a concrete mesh. -/
theorem claim4_witness :
    split_facets example1.originalmesh.Facets ⟨0, 0, 1⟩ = .ok ([exampleF], []) ∧
    (Mesh.ofFacets [exampleF]).points.length ≠ 0 ∧
    ∃ r, cylinder_result example1 = .ok r := by
  have h2 : (Mesh.ofFacets [exampleF]).points.length ≠ 0 := by
    rw [ofFacets_exampleF]
    simp
  exact ⟨example1_split, h2,
    ⟨_, (claim4_thm example1 [exampleF] [] example1_split h2).1⟩⟩

/-- Witness instantiating the theorem of claim C5 at a concrete mesh. -/
theorem claim5_witness :
    split_facets example1.originalmesh.Facets ⟨0, 0, 1⟩ = .ok ([exampleF], []) ∧
    [exampleF].length + ([] : List Facet).length
      = example1.originalmesh.Facets.length :=
  ⟨example1_split, (claim5_thm example1 [exampleF] [] example1_split).1⟩

lemma mapE_if_ok {α β : Type} (p : α → Prop) [∀ a, Decidable (p a)]
    (g : α → β) (e : Err) :
    ∀ l : List α, (∀ a ∈ l, ¬ p a) →
      mapE (fun a => if p a then .error e else .ok (g a)) l = .ok (l.map g) := by
  intro l
  induction l with
  | nil => intro _; rfl
  | cons a as ih =>
    intro h
    simp only [mapE]
    rw [if_neg (h a (List.mem_cons_self a as))]
    rw [ih fun b hb => h b (List.mem_cons_of_mem a hb)]
    simp

lemma mapE_if_ok_inv {α β : Type} (p : α → Prop) [∀ a, Decidable (p a)]
    (g : α → β) (e : Err) :
    ∀ (l : List α) (l2 : List β),
      mapE (fun a => if p a then .error e else .ok (g a)) l = .ok l2 →
      l2 = l.map g ∧ ∀ a ∈ l, ¬ p a := by
  intro l
  induction l with
  | nil =>
    intro l2 h
    simp only [mapE, Except.ok.injEq] at h
    simp [← h]
  | cons a as ih =>
    intro l2 h
    simp only [mapE] at h
    by_cases hp : p a
    · rw [if_pos hp] at h
      exact absurd h (by simp)
    · rw [if_neg hp] at h
      rcases hr : mapE (fun a => if p a then Except.error e else Except.ok (g a)) as
        with e2 | bs <;> rw [hr] at h
      · exact absurd h (by simp)
      · rcases ih bs hr with ⟨hbs, hall⟩
        simp only [Except.ok.injEq] at h
        subst hbs
        constructor
        · rw [← h]
          simp
        · intro b hb
          rcases List.mem_cons.mp hb with hb | hb
          · subst hb; exact hp
          · exact hall b hb

lemma sphere_result_ok (rm : RenderingMesh)
    (h : ∀ p ∈ rm.originalmesh.points,
      (p.sub (compute_barycenter rm.originalmesh.points)).length ≠ 0) :
    sphere_result rm = .ok (rm.originalmesh.points.map fun p =>
      sphere_uv (p.sub (compute_barycenter rm.originalmesh.points))) := by
  unfold sphere_result
  rw [mapE_if_ok (fun v : V3 => v.length = 0) sphere_uv Err.zeroDivisionError _ ?_]
  · rw [List.map_map]
    rfl
  · intro v hv
    rcases List.mem_map.mp hv with ⟨q, hq, rfl⟩
    exact h q hq

lemma sphere_result_ok_inv (rm : RenderingMesh) (uvs : List V2)
    (h : sphere_result rm = .ok uvs) :
    uvs = (rm.originalmesh.points.map fun p =>
      sphere_uv (p.sub (compute_barycenter rm.originalmesh.points))) ∧
    ∀ p ∈ rm.originalmesh.points,
      (p.sub (compute_barycenter rm.originalmesh.points)).length ≠ 0 := by
  unfold sphere_result at h
  rcases mapE_if_ok_inv (fun v : V3 => v.length = 0) sphere_uv
    Err.zeroDivisionError _ uvs h with ⟨huvs, hall⟩
  constructor
  · rw [huvs, List.map_map]
    rfl
  · intro p hp
    exact hall _ (List.mem_map_of_mem _ hp)

/-- Claim C6: in the spherical strategy, the barycenter is the arithmetic
mean of all points (the origin for an empty point set), and for every
point p with v = p - barycenter and |v| > 0 the UV coordinate is
(0.5 + atan2(v.x, v.y)/(2 pi), 0.5 + asin(v.z/|v|)/pi) with both
components then multiplied by (|v|/1000) * pi. -/
theorem claim6_thm :
    (compute_barycenter [] = ⟨0, 0, 0⟩ ∧
      ∀ ps : List V3, ps ≠ [] →
        (compute_barycenter ps).smul ps.length = ps.foldl V3.add ⟨0, 0, 0⟩) ∧
    (∀ v : V3,
      sphere_uv v = V2.smul
        ⟨0.5 + atan2 v.x v.y / (2 * Real.pi),
          0.5 + asin (v.z / v.length) / Real.pi⟩
        (v.length / 1000 * Real.pi)) ∧
    (∀ (rm : RenderingMesh) (uvs : List V2), sphere_result rm = .ok uvs →
      uvs = (rm.originalmesh.points.map fun p =>
        sphere_uv (p.sub (compute_barycenter rm.originalmesh.points))) ∧
      ∀ p ∈ rm.originalmesh.points,
        0 < (p.sub (compute_barycenter rm.originalmesh.points)).length) := by
  refine ⟨⟨rfl, ?_⟩, fun v => rfl, ?_⟩
  · intro ps hne
    have hlen : (ps.length : ℝ) ≠ 0 := by
      simp [List.length_eq_zero]
      exact hne
    unfold compute_barycenter
    rw [if_neg (by simpa [List.length_eq_zero] using hne)]
    simp only [V3.smul, V3.div]
    cases ps.foldl V3.add ⟨0, 0, 0⟩ with
    | mk x y z => simp [div_mul_cancel₀, hlen]
  · intro rm uvs h
    rcases sphere_result_ok_inv rm uvs h with ⟨huvs, hall⟩
    refine ⟨huvs, fun p hp => ?_⟩
    have h0 := hall p hp
    have hnn : 0 ≤ (p.sub (compute_barycenter rm.originalmesh.points)).length :=
      Real.sqrt_nonneg _
    exact lt_of_le_of_ne hnn (Ne.symm h0)

lemma example2_points : example2.originalmesh.points = [⟨0, 0, 0⟩, ⟨2, 0, 0⟩] := by
  simp [example2, RenderingMesh.init, Placement.identity, Mesh.transform]

lemma example2_bary :
    compute_barycenter example2.originalmesh.points = ⟨1, 0, 0⟩ := by
  rw [example2_points]
  norm_num [compute_barycenter, V3.add, V3.div, V3.mk.injEq]

lemma example2_nonzero :
    ∀ p ∈ example2.originalmesh.points,
      (p.sub (compute_barycenter example2.originalmesh.points)).length ≠ 0 := by
  intro p hp
  rw [example2_bary]
  rw [example2_points] at hp
  rcases List.mem_cons.mp hp with rfl | hp
  · norm_num [V3.sub, V3.length, Real.sqrt_ne_zero']
  · rcases List.mem_cons.mp hp with rfl | hp
    · norm_num [V3.sub, V3.length, Real.sqrt_ne_zero']
    · simp at hp

/-- Witness instantiating the theorem of claim C6 at a concrete mesh. -/
theorem claim6_witness :
    sphere_result example2 = .ok (example2.originalmesh.points.map fun p =>
      sphere_uv (p.sub (compute_barycenter example2.originalmesh.points))) ∧
    ∀ p ∈ example2.originalmesh.points,
      0 < (p.sub (compute_barycenter example2.originalmesh.points)).length := by
  have hok := sphere_result_ok example2 example2_nonzero
  exact ⟨hok, (claim6_thm.2.2 example2 _ hok).2⟩

lemma example3_cube_points : (cube_result example3).1.points = [] := by
  rw [cube_result_points]
  simp [example3, RenderingMesh.init, Mesh.transform, Mesh.Facets,
    build_face_facets, Mesh.ofFacets, face_order]

/-- Claim C8: the spherical strategy never reapplies the original
placement and leaves the owned mesh (and every field except the UV map)
entirely unchanged, only replacing the UV map on success; the cubic
strategy, by contrast, can change the mesh. -/
theorem claim8_thm :
    (∀ rm : RenderingMesh,
      rm.compute_uvmap_sphere.2.mesh = rm.mesh ∧
      rm.compute_uvmap_sphere.2.originalmesh = rm.originalmesh ∧
      rm.compute_uvmap_sphere.2.originalplacement = rm.originalplacement ∧
      ∀ uvs, sphere_result rm = .ok uvs →
        rm.compute_uvmap_sphere = (none, { rm with uvmap := some uvs })) ∧
    (∃ rm : RenderingMesh, rm.compute_uvmap_cube.2.mesh ≠ rm.mesh) := by
  constructor
  · intro rm
    unfold RenderingMesh.compute_uvmap_sphere
    rcases hs : sphere_result rm with e | uvs2
    · refine ⟨rfl, rfl, rfl, fun uvs h => ?_⟩
      exact absurd h (by simp)
    · refine ⟨rfl, rfl, rfl, fun uvs h => ?_⟩
      simp only [Except.ok.injEq] at h
      subst h
      rfl
  · refine ⟨example3, fun h => ?_⟩
    have hp := congrArg Mesh.points h
    have hcube : example3.compute_uvmap_cube.2.mesh = (cube_result example3).1 := rfl
    rw [hcube, example3_cube_points] at hp
    have hm : example3.mesh.points = [⟨0, 0, 0⟩] := rfl
    rw [hm] at hp
    exact absurd hp (by simp)

/-- Witness instantiating the theorem of claim C8 at a concrete mesh. -/
theorem claim8_witness :
    sphere_result example2 = .ok (example2.originalmesh.points.map fun p =>
      sphere_uv (p.sub (compute_barycenter example2.originalmesh.points))) ∧
    example2.compute_uvmap_sphere =
      (none, { example2 with uvmap := some (example2.originalmesh.points.map fun p =>
        sphere_uv (p.sub (compute_barycenter example2.originalmesh.points))) }) := by
  have hok := sphere_result_ok example2 example2_nonzero
  exact ⟨hok, (claim8_thm.1 example2).2.2.2 _ hok⟩

lemma cylinder_result_eq_ok (rm : RenderingMesh) (f0 f1 : List Facet)
    (hs : split_facets rm.originalmesh.Facets ⟨0, 0, 1⟩ = .ok (f0, f1))
    (hne : (Mesh.ofFacets f0).points.length ≠ 0) :
    cylinder_result rm = .ok
      ((Mesh.empty.addMesh
          ((Mesh.ofFacets f0).transform rm.originalplacement.toFun)).addMesh
        ((Mesh.ofFacets f1).transform rm.originalplacement.toFun),
        ((Mesh.ofFacets f0).points.map fun p =>
          V2.smul
            ⟨atan2 p.x p.y *
              (((Mesh.ofFacets f0).points.map fun q => hypot q.x q.y).sum /
                ((Mesh.ofFacets f0).points.length : ℝ)), p.z⟩ 0.001) ++
        ((Mesh.ofFacets f1).points.map fun p => V2.mk (p.x / 1000) (p.y / 1000))) := by
  unfold cylinder_result
  rw [hs]
  dsimp only
  rw [if_neg hne]

lemma cylinder_result_ok_inv (rm : RenderingMesh) (mm : Mesh) (uv : List V2)
    (h : cylinder_result rm = .ok (mm, uv)) :
    ∃ f0 f1, split_facets rm.originalmesh.Facets ⟨0, 0, 1⟩ = .ok (f0, f1) ∧
      mm.points = (Mesh.ofFacets f0).points.map rm.originalplacement.toFun ++
        (Mesh.ofFacets f1).points.map rm.originalplacement.toFun ∧
      uv = ((Mesh.ofFacets f0).points.map fun p =>
          V2.smul
            ⟨atan2 p.x p.y *
              (((Mesh.ofFacets f0).points.map fun q => hypot q.x q.y).sum /
                ((Mesh.ofFacets f0).points.length : ℝ)), p.z⟩ 0.001) ++
        ((Mesh.ofFacets f1).points.map fun p => V2.mk (p.x / 1000) (p.y / 1000)) := by
  unfold cylinder_result at h
  rcases hs : split_facets rm.originalmesh.Facets ⟨0, 0, 1⟩ with e | r <;> rw [hs] at h
  · exact absurd h (by simp)
  rcases r with ⟨f0, f1⟩
  dsimp only at h
  by_cases hne : (Mesh.ofFacets f0).points.length = 0
  · rw [if_pos hne] at h
    exact absurd h (by simp)
  · rw [if_neg hne] at h
    simp only [Except.ok.injEq, Prod.mk.injEq] at h
    obtain ⟨hm, hu⟩ := h
    refine ⟨f0, f1, rfl, ?_, hu.symm⟩
    rw [← hm]
    simp [Mesh.addMesh, Mesh.transform, Mesh.empty]

lemma cube_result_len (rm : RenderingMesh) :
    (cube_result rm).2.length = (cube_result rm).1.points.length := by
  rw [cube_result_points, cube_result_uv, List.length_flatten, List.length_flatten,
    List.map_map, List.map_map]
  congr 1
  simp [face_order]

/-- Claim C1: for every mesh and every supported projection kind, after
`compute_uvmap` returns successfully the UV map is present, its length
equals the point count of the (possibly replaced) mesh, and the UV entry
at index i is the projected coordinate corresponding to the mesh point at
index i, in per-sub-mesh append order with no reordering or
deduplication of points. -/
theorem claim1_thm :
    ∀ (m : Mesh) (uvm : Option (List V2)) (pl : Placement) (rm : RenderingMesh),
      rm = RenderingMesh.init m uvm pl →
      (rm.compute_uvmap_cube.1 = none ∧
        rm.compute_uvmap_cube.2.has_uvmap = true ∧
        rm.compute_uvmap_cube.2.uvmap = some (cube_result rm).2 ∧
        rm.compute_uvmap_cube.2.mesh = (cube_result rm).1 ∧
        (cube_result rm).2.length = (cube_result rm).1.points.length ∧
        (cube_result rm).2 = (face_order.map fun face =>
            (Mesh.ofFacets (build_face_facets rm.originalmesh.Facets face)).points.map
              fun p => compute_uv_from_unitcube (p.div 1000) face).flatten ∧
        (cube_result rm).1.points = (face_order.map fun face =>
            (Mesh.ofFacets (build_face_facets rm.originalmesh.Facets face)).points.map
              rm.originalplacement.toFun).flatten) ∧
      (∀ (mm : Mesh) (uv : List V2), cylinder_result rm = .ok (mm, uv) →
        rm.compute_uvmap_cylinder
          = (none, { rm with mesh := mm, uvmap := some uv }) ∧
        rm.compute_uvmap_cylinder.2.has_uvmap = true ∧
        uv.length = mm.points.length ∧
        ∃ f0 f1, split_facets rm.originalmesh.Facets ⟨0, 0, 1⟩ = .ok (f0, f1) ∧
          mm.points = (Mesh.ofFacets f0).points.map rm.originalplacement.toFun ++
            (Mesh.ofFacets f1).points.map rm.originalplacement.toFun ∧
          uv = ((Mesh.ofFacets f0).points.map fun p =>
              V2.smul
                ⟨atan2 p.x p.y *
                  (((Mesh.ofFacets f0).points.map fun q => hypot q.x q.y).sum /
                    ((Mesh.ofFacets f0).points.length : ℝ)), p.z⟩ 0.001) ++
            ((Mesh.ofFacets f1).points.map fun p => V2.mk (p.x / 1000) (p.y / 1000))) ∧
      (∀ uvs : List V2, sphere_result rm = .ok uvs →
        rm.compute_uvmap_sphere = (none, { rm with uvmap := some uvs }) ∧
        rm.compute_uvmap_sphere.2.has_uvmap = true ∧
        uvs.length = rm.compute_uvmap_sphere.2.mesh.points.length ∧
        uvs = (rm.originalmesh.points.map fun p =>
          sphere_uv (p.sub (compute_barycenter rm.originalmesh.points))) ∧
        rm.originalmesh.points = rm.mesh.points.map pl.invFun) := by
  intro m uvm pl rm hrm
  refine ⟨⟨rfl, rfl, rfl, rfl, cube_result_len rm, cube_result_uv rm,
    cube_result_points rm⟩, ?_, ?_⟩
  · intro mm uv h
    have hw : rm.compute_uvmap_cylinder
        = (none, { rm with mesh := mm, uvmap := some uv }) := by
      unfold RenderingMesh.compute_uvmap_cylinder
      rw [h]
    rcases cylinder_result_ok_inv rm mm uv h with ⟨f0, f1, hs, hm, hu⟩
    refine ⟨hw, ?_, ?_, f0, f1, hs, hm, hu⟩
    · rw [hw]
      rfl
    · rw [hm, hu]
      simp
  · intro uvs h
    have hw : rm.compute_uvmap_sphere = (none, { rm with uvmap := some uvs }) := by
      unfold RenderingMesh.compute_uvmap_sphere
      rw [h]
    rcases sphere_result_ok_inv rm uvs h with ⟨huvs, -⟩
    have horig : rm.originalmesh.points = rm.mesh.points.map pl.invFun := by
      subst hrm
      rfl
    refine ⟨hw, ?_, ?_, huvs, horig⟩
    · rw [hw]
      rfl
    · rw [hw]
      dsimp only
      rw [huvs, horig]
      simp

lemma example1_bary :
    compute_barycenter example1.originalmesh.points = ⟨1 / 3, 0, 1 / 3⟩ := by
  rw [example1_originalmesh]
  norm_num [exampleMesh, compute_barycenter, V3.add, V3.div, V3.mk.injEq]

lemma example1_sphere_nonzero :
    ∀ p ∈ example1.originalmesh.points,
      (p.sub (compute_barycenter example1.originalmesh.points)).length ≠ 0 := by
  intro p hp
  rw [example1_bary]
  rw [example1_originalmesh] at hp
  simp only [exampleMesh] at hp
  rcases List.mem_cons.mp hp with rfl | hp
  · norm_num [V3.sub, V3.length, Real.sqrt_ne_zero']
  · rcases List.mem_cons.mp hp with rfl | hp
    · norm_num [V3.sub, V3.length, Real.sqrt_ne_zero']
    · rcases List.mem_cons.mp hp with rfl | hp
      · norm_num [V3.sub, V3.length, Real.sqrt_ne_zero']
      · simp at hp

/-- Witness instantiating the theorem of claim C1 at a concrete mesh. -/
theorem claim1_witness :
    example1 = RenderingMesh.init exampleMesh none Placement.identity ∧
    example1.compute_uvmap_cube.1 = none ∧
    (∃ mm uv, cylinder_result example1 = .ok (mm, uv) ∧
      example1.compute_uvmap_cylinder
        = (none, { example1 with mesh := mm, uvmap := some uv }) ∧
      uv.length = mm.points.length) ∧
    (∃ uvs, sphere_result example1 = .ok uvs ∧
      example1.compute_uvmap_sphere = (none, { example1 with uvmap := some uvs }) ∧
      uvs.length = example1.compute_uvmap_sphere.2.mesh.points.length) := by
  have hrm : example1 = RenderingMesh.init exampleMesh none Placement.identity := rfl
  have H := claim1_thm exampleMesh none Placement.identity example1 hrm
  have h2 : (Mesh.ofFacets [exampleF]).points.length ≠ 0 := by
    rw [ofFacets_exampleF]
    simp
  have hc := cylinder_result_eq_ok example1 [exampleF] [] example1_split h2
  have hs := sphere_result_ok example1 example1_sphere_nonzero
  exact ⟨hrm, H.1.1, ⟨_, _, hc, (H.2.1 _ _ hc).1, (H.2.1 _ _ hc).2.2.1⟩,
    ⟨_, hs, (H.2.2 _ hs).1, (H.2.2 _ hs).2.2.1⟩⟩

lemma exampleR_copy :
    exampleR.copy = RenderingMesh.init meshAB none Placement.identity := rfl

lemma exampleR_Facets : exampleR.originalmesh.Facets = [fAloc, fBloc] := by
  show (meshAB.transform rotY.invFun).Facets = _
  norm_num [meshAB, rotY, Mesh.transform, Mesh.Facets, List.getD_cons_zero,
    List.getD_cons_succ, fAloc, fBloc, V3.mk.injEq, Facet.mk.injEq]

lemma copyR_Facets : exampleR.copy.originalmesh.Facets = [fA, fB] := by
  rw [exampleR_copy]
  show (meshAB.transform Placement.identity.invFun).Facets = _
  norm_num [meshAB, Placement.identity, Mesh.transform, Mesh.Facets,
    List.getD_cons_zero, List.getD_cons_succ, fA, fB, V3.mk.injEq, Facet.mk.injEq]

lemma normal_fAloc : fAloc.normal = ⟨-1, 0, 0⟩ := by
  unfold Facet.normal
  norm_num [fAloc, V3.sub, V3.cross, V3.length, V3.div, Real.sqrt_one, V3.mk.injEq]

lemma normal_fBloc : fBloc.normal = ⟨0, 0, 1⟩ := by
  unfold Facet.normal
  norm_num [fBloc, V3.sub, V3.cross, V3.length, V3.div, Real.sqrt_one, V3.mk.injEq]

lemma normal_fA : fA.normal = ⟨0, 0, 1⟩ := by
  unfold Facet.normal
  norm_num [fA, V3.sub, V3.cross, V3.length, V3.div, Real.sqrt_one, V3.mk.injEq]

lemma normal_fB : fB.normal = ⟨1, 0, 0⟩ := by
  unfold Facet.normal
  norm_num [fB, V3.sub, V3.cross, V3.length, V3.div, Real.sqrt_one, V3.mk.injEq]

lemma classify_mx : intersect_unitcube_face ⟨-1, 0, 0⟩ = .XMINUS := by
  have h := classify_x ⟨-1, 0, 0⟩ (by norm_num) (by norm_num)
  norm_num at h
  exact h

lemma classify_px : intersect_unitcube_face ⟨1, 0, 0⟩ = .XPLUS := by
  have h := classify_x ⟨1, 0, 0⟩ (by norm_num) (by norm_num)
  norm_num at h
  exact h

lemma classify_pz : intersect_unitcube_face ⟨0, 0, 1⟩ = .ZPLUS := by
  have h := classify_z ⟨0, 0, 1⟩ (by norm_num) (by norm_num)
  norm_num at h
  exact h

lemma ofFacets_nil : Mesh.ofFacets [] = ⟨[], []⟩ := rfl

lemma ofFacets_fAloc :
    Mesh.ofFacets [fAloc] = ⟨[⟨0, 0, 0⟩, ⟨0, 0, 1⟩, ⟨0, 1, 0⟩], [(0, 1, 2)]⟩ := by
  norm_num [Mesh.ofFacets, insertPoint, indexOfPoint, fAloc, V3.mk.injEq,
    List.mem_singleton, List.mem_cons]

lemma ofFacets_fBloc :
    Mesh.ofFacets [fBloc] = ⟨[⟨0, 0, 5⟩, ⟨0, 1, 5⟩, ⟨-1, 0, 5⟩], [(0, 1, 2)]⟩ := by
  norm_num [Mesh.ofFacets, insertPoint, indexOfPoint, fBloc, V3.mk.injEq,
    List.mem_singleton, List.mem_cons]

lemma ofFacets_fA :
    Mesh.ofFacets [fA] = ⟨[⟨0, 0, 0⟩, ⟨1, 0, 0⟩, ⟨0, 1, 0⟩], [(0, 1, 2)]⟩ := by
  norm_num [Mesh.ofFacets, insertPoint, indexOfPoint, fA, V3.mk.injEq,
    List.mem_singleton, List.mem_cons]

lemma ofFacets_fB :
    Mesh.ofFacets [fB] = ⟨[⟨5, 0, 0⟩, ⟨5, 1, 0⟩, ⟨5, 0, 1⟩], [(0, 1, 2)]⟩ := by
  norm_num [Mesh.ofFacets, insertPoint, indexOfPoint, fB, V3.mk.injEq,
    List.mem_singleton, List.mem_cons]

lemma origR_cube_points :
    (cube_result exampleR).1.points
      = [⟨0, 0, 0⟩, ⟨1, 0, 0⟩, ⟨0, 1, 0⟩, ⟨5, 0, 0⟩, ⟨5, 1, 0⟩, ⟨5, 0, 1⟩] := by
  rw [cube_result_points, exampleR_Facets]
  have hpl : exampleR.originalplacement = rotY := rfl
  rw [hpl]
  simp only [face_order, build_face_facets_eq_filter, List.map_cons, List.map_nil,
    List.filter_cons, List.filter_nil, normal_fAloc, normal_fBloc,
    classify_mx, classify_pz]
  simp [ofFacets_nil, ofFacets_fAloc, ofFacets_fBloc, rotY, V3.mk.injEq]

lemma copyR_cube_points :
    (cube_result exampleR.copy).1.points
      = [⟨5, 0, 0⟩, ⟨5, 1, 0⟩, ⟨5, 0, 1⟩, ⟨0, 0, 0⟩, ⟨1, 0, 0⟩, ⟨0, 1, 0⟩] := by
  rw [cube_result_points, copyR_Facets]
  have hpl : exampleR.copy.originalplacement = Placement.identity := rfl
  rw [hpl]
  simp only [face_order, build_face_facets_eq_filter, List.map_cons, List.map_nil,
    List.filter_cons, List.filter_nil, normal_fA, normal_fB,
    classify_px, classify_pz]
  simp [ofFacets_nil, ofFacets_fA, ofFacets_fB, Placement.identity, V3.mk.injEq]

lemma origR_cube_uv :
    (cube_result exampleR).2
      = [⟨0, 0⟩, ⟨0, 1 / 1000⟩, ⟨-(1 / 1000), 0⟩,
          ⟨0, 0⟩, ⟨0, 1 / 1000⟩, ⟨-(1 / 1000), 0⟩] := by
  rw [cube_result_uv, exampleR_Facets]
  simp only [face_order, build_face_facets_eq_filter, List.map_cons, List.map_nil,
    List.filter_cons, List.filter_nil, normal_fAloc, normal_fBloc,
    classify_mx, classify_pz]
  simp [ofFacets_nil, ofFacets_fAloc, ofFacets_fBloc,
    compute_uv_from_unitcube, V3.div, V2.mk.injEq]
  all_goals norm_num

lemma copyR_cube_uv :
    (cube_result exampleR.copy).2
      = [⟨0, 0⟩, ⟨1 / 1000, 0⟩, ⟨0, 1 / 1000⟩,
          ⟨0, 0⟩, ⟨1 / 1000, 0⟩, ⟨0, 1 / 1000⟩] := by
  rw [cube_result_uv, copyR_Facets]
  simp only [face_order, build_face_facets_eq_filter, List.map_cons, List.map_nil,
    List.filter_cons, List.filter_nil, normal_fA, normal_fB,
    classify_px, classify_pz]
  simp [ofFacets_nil, ofFacets_fA, ofFacets_fB,
    compute_uv_from_unitcube, V3.div, V2.mk.injEq]

lemma normalize_unit_y : (V3.mk 0 1 0).normalize = .ok ⟨0, 1, 0⟩ := by
  unfold V3.normalize V3.length V3.div
  norm_num [Real.sqrt_one]

lemma normalize_unit_mx : (V3.mk (-1) 0 0).normalize = .ok ⟨-1, 0, 0⟩ := by
  unfold V3.normalize V3.length V3.div
  norm_num [Real.sqrt_one]

lemma fAloc_regular : is_facet_normal_to_vector fAloc ⟨0, 0, 1⟩ = .ok false := by
  have e1 : fAloc.p2.sub fAloc.p1 = V3.mk 0 0 1 := by
    simp [fAloc, V3.sub]
  have e2 : fAloc.p3.sub fAloc.p1 = V3.mk 0 1 0 := by
    simp [fAloc, V3.sub]
  unfold is_facet_normal_to_vector
  rw [e1, e2, normalize_unit_z, normalize_unit_y]
  dsimp only
  rw [if_neg]
  rintro ⟨hc1, -⟩
  have h := (isclose_zero_iff _).mp hc1
  norm_num [V3.dot] at h

lemma fBloc_znormal : is_facet_normal_to_vector fBloc ⟨0, 0, 1⟩ = .ok true := by
  have e1 : fBloc.p2.sub fBloc.p1 = V3.mk 0 1 0 := by
    simp [fBloc, V3.sub]
  have e2 : fBloc.p3.sub fBloc.p1 = V3.mk (-1) 0 0 := by
    simp [fBloc, V3.sub]
  unfold is_facet_normal_to_vector
  rw [e1, e2, normalize_unit_y, normalize_unit_mx, normalize_unit_z]
  dsimp only
  rw [if_pos]
  exact ⟨(isclose_zero_iff _).mpr (by norm_num [V3.dot]),
    (isclose_zero_iff _).mpr (by norm_num [V3.dot])⟩

lemma fA_znormal : is_facet_normal_to_vector fA ⟨0, 0, 1⟩ = .ok true := by
  have e1 : fA.p2.sub fA.p1 = V3.mk 1 0 0 := by
    simp [fA, V3.sub]
  have e2 : fA.p3.sub fA.p1 = V3.mk 0 1 0 := by
    simp [fA, V3.sub]
  unfold is_facet_normal_to_vector
  rw [e1, e2, normalize_unit_x, normalize_unit_y, normalize_unit_z]
  dsimp only
  rw [if_pos]
  exact ⟨(isclose_zero_iff _).mpr (by norm_num [V3.dot]),
    (isclose_zero_iff _).mpr (by norm_num [V3.dot])⟩

lemma fB_regular : is_facet_normal_to_vector fB ⟨0, 0, 1⟩ = .ok false := by
  have e1 : fB.p2.sub fB.p1 = V3.mk 0 1 0 := by
    simp [fB, V3.sub]
  have e2 : fB.p3.sub fB.p1 = V3.mk 0 0 1 := by
    simp [fB, V3.sub]
  unfold is_facet_normal_to_vector
  rw [e1, e2, normalize_unit_y, normalize_unit_z]
  dsimp only
  rw [if_neg]
  rintro ⟨-, hc2⟩
  have h := (isclose_zero_iff _).mp hc2
  norm_num [V3.dot] at h

lemma origR_split :
    split_facets exampleR.originalmesh.Facets ⟨0, 0, 1⟩ = .ok ([fAloc], [fBloc]) := by
  rw [exampleR_Facets]
  simp [split_facets, fAloc_regular, fBloc_znormal]

lemma copyR_split :
    split_facets exampleR.copy.originalmesh.Facets ⟨0, 0, 1⟩ = .ok ([fB], [fA]) := by
  rw [copyR_Facets]
  simp [split_facets, fA_znormal, fB_regular]

lemma compute_uvmap_cylinder_mesh (rm : RenderingMesh) (r : Mesh × List V2)
    (h : cylinder_result rm = .ok r) :
    rm.compute_uvmap_cylinder.2.mesh = r.1 := by
  unfold RenderingMesh.compute_uvmap_cylinder
  rw [h]

lemma compute_uvmap_cylinder_uvmap (rm : RenderingMesh) (r : Mesh × List V2)
    (h : cylinder_result rm = .ok r) :
    rm.compute_uvmap_cylinder.2.uvmap = some r.2 := by
  unfold RenderingMesh.compute_uvmap_cylinder
  rw [h]

lemma origR_cyl_ok :
    cylinder_result exampleR = .ok
      ((Mesh.empty.addMesh
          ((Mesh.ofFacets [fAloc]).transform exampleR.originalplacement.toFun)).addMesh
        ((Mesh.ofFacets [fBloc]).transform exampleR.originalplacement.toFun),
        ((Mesh.ofFacets [fAloc]).points.map fun p =>
          V2.smul
            ⟨atan2 p.x p.y *
              (((Mesh.ofFacets [fAloc]).points.map fun q => hypot q.x q.y).sum /
                ((Mesh.ofFacets [fAloc]).points.length : ℝ)), p.z⟩ 0.001) ++
        ((Mesh.ofFacets [fBloc]).points.map fun p => V2.mk (p.x / 1000) (p.y / 1000))) :=
  cylinder_result_eq_ok exampleR [fAloc] [fBloc] origR_split
    (by rw [ofFacets_fAloc]; simp)

lemma copyR_cyl_ok :
    cylinder_result exampleR.copy = .ok
      ((Mesh.empty.addMesh
          ((Mesh.ofFacets [fB]).transform exampleR.copy.originalplacement.toFun)).addMesh
        ((Mesh.ofFacets [fA]).transform exampleR.copy.originalplacement.toFun),
        ((Mesh.ofFacets [fB]).points.map fun p =>
          V2.smul
            ⟨atan2 p.x p.y *
              (((Mesh.ofFacets [fB]).points.map fun q => hypot q.x q.y).sum /
                ((Mesh.ofFacets [fB]).points.length : ℝ)), p.z⟩ 0.001) ++
        ((Mesh.ofFacets [fA]).points.map fun p => V2.mk (p.x / 1000) (p.y / 1000))) :=
  cylinder_result_eq_ok exampleR.copy [fB] [fA] copyR_split
    (by rw [ofFacets_fB]; simp)

lemma origR_cyl_points :
    exampleR.compute_uvmap_cylinder.2.mesh.points
      = [⟨0, 0, 0⟩, ⟨1, 0, 0⟩, ⟨0, 1, 0⟩, ⟨5, 0, 0⟩, ⟨5, 1, 0⟩, ⟨5, 0, 1⟩] := by
  rw [compute_uvmap_cylinder_mesh exampleR _ origR_cyl_ok]
  have hpl : exampleR.originalplacement = rotY := rfl
  rw [hpl]
  simp [Mesh.addMesh, Mesh.transform, Mesh.empty, ofFacets_fAloc, ofFacets_fBloc,
    rotY, V3.mk.injEq]

lemma copyR_cyl_points :
    exampleR.copy.compute_uvmap_cylinder.2.mesh.points
      = [⟨5, 0, 0⟩, ⟨5, 1, 0⟩, ⟨5, 0, 1⟩, ⟨0, 0, 0⟩, ⟨1, 0, 0⟩, ⟨0, 1, 0⟩] := by
  rw [compute_uvmap_cylinder_mesh exampleR.copy _ copyR_cyl_ok]
  have hpl : exampleR.copy.originalplacement = Placement.identity := rfl
  rw [hpl]
  simp [Mesh.addMesh, Mesh.transform, Mesh.empty, ofFacets_fA, ofFacets_fB,
    Placement.identity, V3.mk.injEq]

lemma cyl_uvmap_ne :
    exampleR.compute_uvmap_cylinder.2.uvmap
      ≠ exampleR.copy.compute_uvmap_cylinder.2.uvmap := by
  rw [compute_uvmap_cylinder_uvmap exampleR _ origR_cyl_ok,
    compute_uvmap_cylinder_uvmap exampleR.copy _ copyR_cyl_ok]
  intro h
  simp only [Option.some.injEq] at h
  have h4 := congrArg (fun l => l.get? 4) h
  rw [ofFacets_fAloc, ofFacets_fBloc, ofFacets_fA, ofFacets_fB] at h4
  simp only [List.map_cons, List.map_nil, List.cons_append, List.nil_append,
    List.get?] at h4
  simp only [Option.some.injEq, V2.mk.injEq] at h4
  norm_num at h4

/-- Claim C10 is false as universally stated: the empty mesh constructed
with a non-identity translation placement is a rendering mesh on which
the cubic strategy produces exactly the same mesh and UV map for the
copy as for the original, and the cylindric strategy likewise leaves the
copy with exactly the same mesh and UV map as the original (both calls
fail on the empty regular sub-mesh and change nothing), so neither
strategy produces differing results on this input. -/
theorem claim10_counterexample :
    (RenderingMesh.init Mesh.empty none translate1).copy.originalplacement
        = Placement.identity ∧
    translate1 ≠ Placement.identity ∧
    (RenderingMesh.init Mesh.empty none translate1).compute_uvmap_cube.2.mesh
      = (RenderingMesh.init Mesh.empty none translate1).copy.compute_uvmap_cube.2.mesh ∧
    (RenderingMesh.init Mesh.empty none translate1).compute_uvmap_cube.2.uvmap
      = (RenderingMesh.init Mesh.empty none translate1).copy.compute_uvmap_cube.2.uvmap ∧
    (RenderingMesh.init Mesh.empty none translate1).compute_uvmap_cylinder.2.mesh
      = (RenderingMesh.init Mesh.empty none translate1).copy.compute_uvmap_cylinder.2.mesh ∧
    (RenderingMesh.init Mesh.empty none translate1).compute_uvmap_cylinder.2.uvmap
      = (RenderingMesh.init Mesh.empty none translate1).copy.compute_uvmap_cylinder.2.uvmap := by
  refine ⟨rfl, ?_, rfl, rfl, rfl, rfl⟩
  intro h
  have h2 := congrArg (fun p : Placement => (p.toFun ⟨0, 0, 0⟩).x) h
  simp [translate1, Placement.identity] at h2

/-- Claim C10 (amended): `copy` returns an object whose original
placement is the identity and whose original (unplaced) mesh equals the
current mesh, because the placement is not forwarded to the constructor;
consequently there are meshes and non-identity placements for which the
cubic strategy produces a different mesh point list and a different UV
map on the copy than on the original, and likewise meshes and
non-identity placements for which the cylindric strategy produces a
different mesh point list and a different UV map on the copy than on
the original. -/
theorem claim10_thm :
    (∀ (m : Mesh) (uvm : Option (List V2)) (pl : Placement),
      (RenderingMesh.init m uvm pl).copy.originalplacement = Placement.identity ∧
      (RenderingMesh.init m uvm pl).copy.originalmesh
        = (RenderingMesh.init m uvm pl).copy.mesh ∧
      (RenderingMesh.init m uvm pl).copy.mesh = m) ∧
    (∃ (m : Mesh) (pl : Placement), pl ≠ Placement.identity ∧
      (RenderingMesh.init m none pl).compute_uvmap_cube.2.mesh.points
        ≠ (RenderingMesh.init m none pl).copy.compute_uvmap_cube.2.mesh.points ∧
      (RenderingMesh.init m none pl).compute_uvmap_cube.2.uvmap
        ≠ (RenderingMesh.init m none pl).copy.compute_uvmap_cube.2.uvmap) ∧
    (∃ (m : Mesh) (pl : Placement), pl ≠ Placement.identity ∧
      (RenderingMesh.init m none pl).compute_uvmap_cylinder.2.mesh.points
        ≠ (RenderingMesh.init m none pl).copy.compute_uvmap_cylinder.2.mesh.points ∧
      (RenderingMesh.init m none pl).compute_uvmap_cylinder.2.uvmap
        ≠ (RenderingMesh.init m none pl).copy.compute_uvmap_cylinder.2.uvmap) := by
  refine ⟨?_, ?_, ?_⟩
  · intro m uvm pl
    refine ⟨rfl, ?_, rfl⟩
    show (RenderingMesh.init m uvm pl).mesh.transform (fun v => v)
        = (RenderingMesh.init m uvm pl).mesh
    cases (RenderingMesh.init m uvm pl).mesh with
    | mk pts fcs => simp [Mesh.transform]
  · refine ⟨meshAB, rotY, ?_, ?_, ?_⟩
    · intro h
      have h2 := congrArg (fun p : Placement => (p.toFun ⟨1, 0, 0⟩).z) h
      simp [rotY, Placement.identity] at h2
    · show (cube_result exampleR).1.points ≠ (cube_result exampleR.copy).1.points
      rw [origR_cube_points, copyR_cube_points]
      intro h
      simp only [List.cons.injEq, V3.mk.injEq] at h
      norm_num at h
    · show some (cube_result exampleR).2 ≠ some (cube_result exampleR.copy).2
      rw [origR_cube_uv, copyR_cube_uv]
      intro h
      simp only [Option.some.injEq, List.cons.injEq, V2.mk.injEq] at h
      norm_num at h
  · refine ⟨meshAB, rotY, ?_, ?_, ?_⟩
    · intro h
      have h2 := congrArg (fun p : Placement => (p.toFun ⟨1, 0, 0⟩).z) h
      simp [rotY, Placement.identity] at h2
    · show exampleR.compute_uvmap_cylinder.2.mesh.points
        ≠ exampleR.copy.compute_uvmap_cylinder.2.mesh.points
      rw [origR_cyl_points, copyR_cyl_points]
      intro h
      simp only [List.cons.injEq, V3.mk.injEq] at h
      norm_num at h
    · exact cyl_uvmap_ne

end
